import Mathlib

/-!
Shallow embedding of the guaranteed-count retrieval core of the Paper_Agent
repository (src/core/smart_download_manager.py, src/clients/download_client.py,
src/utils/utils.py, src/models.py), together with theorems settling the
specification claims about it.

Conventions of the embedding:
* Python floats (relevance/priority scores, clock timestamps, delays) are
  modelled as rationals `ℚ`.
* Python `int` fields are `Int` (years, indices) or `Nat` (counts, sizes).
* Mutable `Paper` objects shared between lists are modelled as an explicit
  store (`List Paper`) addressed by stable indices, mirroring the object
  arena; lists of papers in the Python code become lists of store indices.
* Network / filesystem effects are parameterised by oracles describing the
  outcome of each provider call; fallible code returns `Except`.
-/

namespace PaperAgent

/-- `models.DownloadStatus`. -/
inductive DownloadStatus where
  | PENDING
  | DOWNLOADING
  | DOWNLOADED
  | FAILED
  | SKIPPED
deriving DecidableEq, Repr

/-- `models.JournalType`. -/
inductive JournalType where
  | ELSEVIER
  | NON_ELSEVIER
  | UNKNOWN
deriving DecidableEq, Repr

/-- `models.Paper` (dataclass). Float-valued fields are rationals. -/
structure Paper where
  title : String := ""
  doi : String := ""
  authors : List String := []
  journal : String := ""
  year : Int := 0
  citation_count : Nat := 0
  abstract : String := ""
  paper_index : Int := 0
  relevance_score : ℚ := 0
  priority_score : ℚ := 0
  is_selected : Bool := false
  journal_type : JournalType := .UNKNOWN
  download_status : DownloadStatus := .PENDING
  pdf_filename : String := ""
  pdf_size : Nat := 0
  analysis_completed : Bool := false
deriving DecidableEq, Repr

/-- Elsevier DOI prefixes from `utils.is_elsevier_doi`. -/
def elsevierDoiStarts : List String :=
  ["10.1016/", "10.1006/", "10.1053/", "10.1054/", "10.1078/", "10.1529/"]

/-- Explicitly non-Elsevier DOI prefixes from `utils.is_elsevier_doi`. -/
def nonElsevierDoiStarts : List String :=
  ["10.1007/", "10.1021/", "10.1002/", "10.1063/", "10.1088/",
   "10.1103/", "10.1126/", "10.1038/", "10.3390/", "10.1039/"]

/-- Does `l` start with the first argument? (Python `startswith`.) -/
def seqStartsWith [DecidableEq α] : List α → List α → Bool
  | [], _ => true
  | _ :: _, [] => false
  | a :: as, b :: bs => a = b && seqStartsWith as bs

/-- Does `pat` occur as a contiguous subsequence of `l`? (Python `in` on
bytes/str.) -/
def seqContains [DecidableEq α] (pat : List α) : List α → Bool
  | [] => pat.isEmpty
  | a :: rest => seqStartsWith pat (a :: rest) || seqContains pat rest

/-- Python `str.lower`, as a character list. -/
def strLowerChars (s : String) : List Char := s.data.map Char.toLower

/-- `utils.is_elsevier_doi`: the non-Elsevier list is consulted first, then
the Elsevier list; anything else is not Elsevier. -/
def is_elsevier_doi (doi : String) : Bool :=
  if doi = "" then false
  else
    let dl := strLowerChars doi
    if nonElsevierDoiStarts.any (fun p => seqStartsWith (strLowerChars p) dl) then false
    else elsevierDoiStarts.any (fun p => seqStartsWith (strLowerChars p) dl)

/-- The score computation inside
`SmartDownloadManager._calculate_priority_scores`, as a function of the four
fields it reads. -/
def calcScore (relevance : ℚ) (jt : JournalType) (year : Int) (cites : Nat) : ℚ :=
  let base : ℚ := relevance
  let withJournal : ℚ :=
    if jt = JournalType.ELSEVIER then
      base + 3 + (if 2018 ≤ year then 1 else 0)
    else
      base + 1 + (if year ≤ 2019 then 1 else 0)
             + (if 2010 ≤ year ∧ year ≤ 2018 then (1 : ℚ)/2 else 0)
  withJournal + min ((cites : ℚ) / 50) 2

/-- The per-paper mutation `paper.priority_score = score` performed by
`_calculate_priority_scores`. -/
def setScore (p : Paper) : Paper :=
  { p with priority_score := calcScore p.relevance_score p.journal_type p.year p.citation_count }

/-! ### Stable descending sort

`list.sort(key=..., reverse=True)` in Python is a stable sort: elements with
equal keys keep their original relative order, and `reverse=True` still keeps
ties in original order.  We model it by a stable insertion sort. -/

/-- Insert `a` in front of the first element whose key is not greater than
`a`'s key (so `a` stays before later elements with an equal key). -/
def insertDesc (key : α → ℚ) (a : α) : List α → List α
  | [] => [a]
  | b :: l => if key a < key b then b :: insertDesc key a l else a :: b :: l

/-- Stable descending sort by `key`; model of Python
`sort(key=key, reverse=True)`. -/
def sortDesc (key : α → ℚ) : List α → List α
  | [] => []
  | a :: l => insertDesc key a (sortDesc key l)

/-! ### Provider layer (`clients/download_client.py`)

The two downloader strategy chains perform network and filesystem I/O; each
is abstracted by an oracle giving the net outcome of one call to its
`download_pdf` entry point (already wrapped in `retry_on_failure`): success
with a byte size, failure `(False, 0)`, or a raised exception. -/

/-- Net outcome of one downloader chain invocation. -/
inductive DLOutcome where
  | success (size : Nat)
  | failure
  | raiseErr
deriving DecidableEq, Repr

/-- Which concrete downloader a call went to. -/
inductive Provider where
  | elsevier
  | anna
deriving DecidableEq, Repr

/-- The two strategy chains owned by `DownloadManager`. -/
structure Downloaders where
  elsevier : Paper → DLOutcome
  anna : Paper → DLOutcome

/-- Result of a download call: the updated paper object, the boolean
result, and the providers that were invoked (in order). -/
structure DPResult where
  paper : Paper
  ok : Bool
  used : List Provider
deriving Repr

/-- The mutations `DownloadManager.download_paper` performs on success. -/
def markDownloaded (p : Paper) (name : String) (size : Nat) : Paper :=
  { p with download_status := DownloadStatus.DOWNLOADED,
           pdf_filename := name, pdf_size := size }

/-- `DownloadManager.download_paper`: dispatches on `is_elsevier_doi(paper.doi)`
(not on `paper.journal_type`); on Elsevier-primary failure falls back to the
Anna Archive chain; any exception is caught and turns into a failure. -/
def download_paper (d : Downloaders) (p : Paper) (outputName : String) : DPResult :=
  if p.doi = "" then
    { paper := { p with download_status := DownloadStatus.FAILED }, ok := false, used := [] }
  else
    let p1 := { p with download_status := DownloadStatus.DOWNLOADING }
    if is_elsevier_doi p1.doi then
      match d.elsevier p1 with
      | .success size =>
        { paper := markDownloaded p1 outputName size, ok := true, used := [.elsevier] }
      | .failure =>
        match d.anna p1 with
        | .success size =>
          { paper := markDownloaded p1 outputName size, ok := true, used := [.elsevier, .anna] }
        | .failure =>
          { paper := { p1 with download_status := DownloadStatus.FAILED }, ok := false,
            used := [.elsevier, .anna] }
        | .raiseErr =>
          { paper := { p1 with download_status := DownloadStatus.FAILED }, ok := false,
            used := [.elsevier, .anna] }
      | .raiseErr =>
        { paper := { p1 with download_status := DownloadStatus.FAILED }, ok := false,
          used := [.elsevier] }
    else
      match d.anna p1 with
      | .success size =>
        { paper := markDownloaded p1 outputName size, ok := true, used := [.anna] }
      | .failure =>
        { paper := { p1 with download_status := DownloadStatus.FAILED }, ok := false,
          used := [.anna] }
      | .raiseErr =>
        { paper := { p1 with download_status := DownloadStatus.FAILED }, ok := false,
          used := [.anna] }

/-- The `finally` block of `SmartDownloadManager._download_single_paper`:
a paper still marked DOWNLOADING is downgraded to FAILED. -/
def fixupStatus (p : Paper) : Paper :=
  if p.download_status = DownloadStatus.DOWNLOADING then
    { p with download_status := DownloadStatus.FAILED }
  else p

/-- `SmartDownloadManager._download_single_paper`.  In the institutional
branch both the Elsevier and non-Elsevier sub-branches perform the same
`download_manager.download_paper` call (they differ only in logging), so
they are merged here.  In the non-institutional branch the paper's
`journal_type` is temporarily set to NON_ELSEVIER and restored in a
`finally` block. -/
def download_single_paper (d : Downloaders) (withinInstitutionalIp : Bool)
    (p : Paper) (outputName : String) : DPResult :=
  let p0 := { p with download_status := DownloadStatus.DOWNLOADING }
  if withinInstitutionalIp then
    let r := download_paper d p0 outputName
    if r.ok then
      { paper := fixupStatus { r.paper with download_status := DownloadStatus.DOWNLOADED },
        ok := true, used := r.used }
    else
      { paper := fixupStatus r.paper, ok := false, used := r.used }
  else
    let original := p0.journal_type
    let pForced := { p0 with journal_type := JournalType.NON_ELSEVIER }
    let r := download_paper d pForced outputName
    let restored := { r.paper with journal_type := original }
    if r.ok then
      { paper := fixupStatus { restored with download_status := DownloadStatus.DOWNLOADED },
        ok := true, used := r.used }
    else
      { paper := fixupStatus restored, ok := false, used := r.used }

/-! ### `utils.retry_on_failure`

The decorated operation is modelled as a map from attempt number to outcome
(`.ok` value or `.error` message).  The model returns the final result, the
number of attempts performed, and the sequence of back-off sleeps. -/

/-- The retry loop body: remaining attempts, current attempt index, last
error, accumulated sleeps. -/
def retryGo (f : Nat → Except String α) (delay : ℚ) :
    Nat → Nat → String → List ℚ → Except String α × Nat × List ℚ
  | 0, attemptIdx, lastErr, sleeps => (.error lastErr, attemptIdx, sleeps)
  | n + 1, attemptIdx, lastErr, sleeps =>
    match f attemptIdx with
    | .ok v => (.ok v, attemptIdx + 1, sleeps)
    | .error e =>
      retryGo f delay n (attemptIdx + 1) e
        (if 0 < n then sleeps ++ [delay * 2 ^ attemptIdx] else sleeps)

/-- `utils.retry_on_failure(max_retries, delay)` applied to an operation:
every exception is treated alike (there is no retryable/fatal classifier);
after the attempts are exhausted the last error propagates. -/
def retry_on_failure (maxRetries : Nat) (delay : ℚ) (f : Nat → Except String α) :
    Except String α × Nat × List ℚ :=
  retryGo f delay maxRetries 0 "No attempts made" []

/-! ### `utils.RateLimiter`

State is the list of granted-call timestamps (oldest first); the clock is an
explicit rational.  `asyncio.sleep` is modelled as advancing the clock by
exactly the requested amount. -/

/-- `RateLimiter.wait_if_needed` as a state transformer: given the window
ceiling, the recorded calls and the current time, returns the new call list
(with the new call appended) and the time at which the call was granted. -/
def wait_if_needed (callsPerMinute : Nat) (calls : List ℚ) (now : ℚ) : List ℚ × ℚ :=
  let calls1 := calls.filter (fun c => now - c < 60)
  if callsPerMinute ≤ calls1.length then
    let sleepTime := 60 - (now - calls1.headD 0)
    if 0 < sleepTime then
      let now2 := now + sleepTime
      let calls2 := calls1.filter (fun c => now2 - c < 60)
      (calls2 ++ [now2], now2)
    else
      (calls1 ++ [now], now)
  else
    (calls1 ++ [now], now)

/-- A sequence of `wait_if_needed` calls on one `RateLimiter`: `gaps` are the
non-negative clock advances before each call.  Returns the granted
timestamps in order. -/
def rateLimiterRun (cpm : Nat) : List ℚ → List ℚ → ℚ → List ℚ
  | [], _, _ => []
  | gap :: rest, calls, now =>
    let r := wait_if_needed cpm calls (now + gap)
    r.2 :: rateLimiterRun cpm rest r.1 r.2

/-- Number of timestamps of `l` falling in the trailing window `(x, x+60]`. -/
def windowCount (l : List ℚ) (x : ℚ) : Nat :=
  (l.filter (fun t => x < t ∧ t ≤ x + 60)).length

/-! ### Anna Archive download endpoints (`AnnaArchiveDownloader`)

Responses are byte lists plus a content-type string; `raisesErr` marks a
request whose `get` raised.  The written output file is threaded as an
`Option (List Nat)`. -/

/-- An HTTP response as seen by the downloader. -/
structure HttpResponse where
  content : List Nat
  contentType : String
  raisesErr : Bool := false
deriving DecidableEq, Repr

/-- The four bytes `%PDF`. -/
def pdfMagic : List Nat := [37, 80, 68, 70]

/-- `content.startswith(b'%PDF')`. -/
def startsWithPdf (c : List Nat) : Bool := seqStartsWith pdfMagic c

/-- `'application/pdf' in content_type`. -/
def declaresPdfType (ct : String) : Bool :=
  seqContains "application/pdf".data ct.data

/-- Result of one download attempt against the archive: the boolean result,
the reported byte count, and the state of the output file. -/
structure FetchResult where
  ok : Bool
  size : Nat
  file : Option (List Nat)
deriving DecidableEq, Repr

/-- The acceptance test of `AnnaArchiveDownloader._download_by_md5`:
PDF magic, or declared PDF content type, or more than 1000 bytes. -/
def md5AcceptTest (r : HttpResponse) : Bool :=
  startsWithPdf r.content || declaresPdfType r.contentType
    || decide (1000 < r.content.length)

/-- Loop of `_download_by_md5` over its download endpoints (indices into the
response oracle).  An accepted response is written to the output file and
reported as success with no further validation. -/
def downloadByMd5Go (resps : Nat → HttpResponse) (file : Option (List Nat)) :
    List Nat → FetchResult
  | [] => { ok := false, size := 0, file := file }
  | i :: rest =>
    let r := resps i
    if r.raisesErr then downloadByMd5Go resps file rest
    else if md5AcceptTest r then
      { ok := true, size := r.content.length, file := some r.content }
    else
      downloadByMd5Go resps file rest

/-- `AnnaArchiveDownloader._download_by_md5`: tries the three MD5-keyed
endpoints in order. -/
def download_by_md5 (resps : Nat → HttpResponse) (file : Option (List Nat)) : FetchResult :=
  downloadByMd5Go resps file [0, 1, 2]

/-- `AnnaArchiveDownloader._download_from_url` (fast-download path): small
responses are rejected; `%PDF`-led content is accepted directly; content
over 50000 bytes is written to disk, the first 10 bytes are read back, and
the file is deleted (with failure reported) unless `%PDF` occurs in them. -/
def download_from_url (r : HttpResponse) (file : Option (List Nat)) : FetchResult :=
  if r.raisesErr then { ok := false, size := 0, file := file }
  else
    let content := r.content
    if content.length < 1000 then { ok := false, size := 0, file := file }
    else if startsWithPdf content then
      { ok := true, size := content.length, file := some content }
    else if 50000 < content.length then
      let firstBytes := content.take 10
      if seqContains pdfMagic firstBytes then
        { ok := true, size := content.length, file := some content }
      else
        { ok := false, size := 0, file := none }
    else { ok := false, size := 0, file := file }

/-! ### The orchestrator (`SmartDownloadManager`)

Shared mutable `Paper` objects are modelled by a store `List Paper` indexed
by stable position; the Python lists of paper objects become lists of store
indices.  The destination-path allocator (material id, sequence index,
sanitised title) is an external collaborator and is passed in as
`pdfName : Paper → String`. -/

/-- Placeholder for out-of-range store reads (never reached on the pools the
orchestrator builds). -/
def defaultPaper : Paper := {}

/-- Read an object from the store. -/
def getP (store : List Paper) (i : Nat) : Paper := store.getD i defaultPaper

/-- The scoring loop of `_calculate_priority_scores`: sets
`paper.priority_score` on each paper of the given list, in order. -/
def updateScores (store : List Paper) (pool : List Nat) : List Paper :=
  pool.foldl (fun st i => st.set i (setScore (getP st i))) store

/-- Sort key: the freshly computed `priority_score`. -/
def scoreKey (store : List Paper) (i : Nat) : ℚ := (getP store i).priority_score

/-- Exceptions the orchestrator can raise. -/
inductive PyErr where
  | indexError
deriving DecidableEq, Repr

/-- `SmartDownloadManager._calculate_priority_scores`: score every paper of
the pool, sort descending (stable).  Its summary log line reads
`scored_papers[0]`, which raises `IndexError` on an empty pool. -/
def calculate_priority_scores (store : List Paper) (pool : List Nat) :
    Except PyErr (List Paper × List Nat) :=
  let st := updateScores store pool
  let sortedPool := sortDesc (scoreKey st) pool
  if sortedPool.isEmpty then .error .indexError
  else .ok (st, sortedPool)

/-- One iteration of the download loop shared by the priority and
supplementation phases: mark DOWNLOADING, build the destination name,
attempt the download, and update status / filename / size accordingly.
The size re-read from `pdf_path.stat()` is modelled as the recorded size. -/
def processOne (d : Downloaders) (inst : Bool) (pdfName : Paper → String)
    (p : Paper) : Paper × Bool :=
  let p0 := { p with download_status := DownloadStatus.DOWNLOADING }
  let name := pdfName p0
  let r := download_single_paper d inst p0 name
  if r.ok then
    let p1 := { r.paper with
                download_status := DownloadStatus.DOWNLOADED
                pdf_filename := name
                pdf_size := r.paper.pdf_size }
    (p1, true)
  else
    ({ r.paper with download_status := DownloadStatus.FAILED }, false)

/-- The attempt loop of `_priority_download_phase` /
`_supplementation_phase`: papers are tried in the given (priority) order;
successes are appended to `succ` and the loop stops as soon as
`targetCount` successes are accumulated. -/
def downloadPhaseLoop (d : Downloaders) (inst : Bool) (pdfName : Paper → String)
    (targetCount : Nat) : List Nat → List Paper → List Nat → List Paper × List Nat
  | [], store, succ => (store, succ)
  | i :: rest, store, succ =>
    let pr := processOne d inst pdfName (getP store i)
    if pr.2 then
      let store' := store.set i pr.1
      let succ' := succ ++ [i]
      if targetCount ≤ succ'.length then (store', succ')
      else downloadPhaseLoop d inst pdfName targetCount rest store' succ'
    else
      downloadPhaseLoop d inst pdfName targetCount rest (store.set i pr.1) succ

/-- `SmartDownloadManager._priority_download_phase`. -/
def priority_download_phase (d : Downloaders) (inst : Bool) (pdfName : Paper → String)
    (store : List Paper) (pool : List Nat) (targetCount : Nat) :
    Except PyErr (List Paper × List Nat) := do
  let sc ← calculate_priority_scores store pool
  pure (downloadPhaseLoop d inst pdfName targetCount sc.2 sc.1 [])

/-- `SmartDownloadManager._supplementation_phase`: empty remainder or a met
target short-circuits before any scoring. -/
def supplementation_phase (d : Downloaders) (inst : Bool) (pdfName : Paper → String)
    (store : List Paper) (remaining : List Nat) (neededCount : Nat) :
    Except PyErr (List Paper × List Nat) :=
  if remaining.isEmpty || neededCount = 0 then .ok (store, [])
  else do
    let sc ← calculate_priority_scores store remaining
    pure (downloadPhaseLoop d inst pdfName neededCount sc.2 sc.1 [])

/-- The reindex loop of `_precise_selection`:
`for idx, paper in enumerate(selected, 1): paper.paper_index = idx`. -/
def reindexSelected (store : List Paper) : List Nat → Int → List Paper
  | [], _ => store
  | i :: rest, idx =>
    reindexSelected (store.set i { getP store i with paper_index := idx }) rest (idx + 1)

/-- The demote loop of `_precise_selection`:
`for paper in all_downloads: if paper not in selected: paper.download_status
= SKIPPED` — Python `not in` compares dataclass values against the current
state. -/
def demoteUnselected (st : List Paper) (allDownloads sel : List Nat) : List Paper :=
  allDownloads.foldl (fun st i =>
    if sel.any (fun j => decide (getP st i = getP st j)) then st
    else st.set i { getP st i with download_status := DownloadStatus.SKIPPED }) st

/-- `SmartDownloadManager._precise_selection`: with more downloads than the
target, rescore, keep the top `targetCount`, mark every paper whose value
does not occur among the selected ones as SKIPPED, and reassign the
selected papers' indices densely. -/
def precise_selection (store : List Paper) (allDownloads : List Nat)
    (targetCount : Nat) : Except PyErr (List Paper × List Nat) :=
  if allDownloads.length ≤ targetCount then .ok (store, allDownloads)
  else do
    let sc ← calculate_priority_scores store allDownloads
    let sel := sc.2.take targetCount
    pure (reindexSelected (demoteUnselected sc.1 allDownloads sel) sel 1, sel)

/-- `SmartDownloadManager.ensure_target_downloads`: the three-phase
guaranteed-count algorithm.  Returns the list of selected paper values. -/
def ensure_target_downloads (d : Downloaders) (inst : Bool) (pdfName : Paper → String)
    (papers : List Paper) (targetCount : Nat) : Except PyErr (List Paper) := do
  let pool := List.range papers.length
  let ph1 ← priority_download_phase d inst pdfName papers pool targetCount
  let store1 := ph1.1
  let succ1 := ph1.2
  if targetCount ≤ succ1.length then
    pure ((succ1.take targetCount).map (getP store1))
  else
    let remaining := pool.filter (fun i =>
      ! succ1.any (fun j => decide (getP store1 i = getP store1 j)))
    let ph2 ← supplementation_phase d inst pdfName store1 remaining
      (targetCount - succ1.length)
    let store2 := ph2.1
    let allDl := succ1 ++ ph2.2
    if targetCount ≤ allDl.length then
      let ps ← precise_selection store2 allDl targetCount
      pure (ps.2.map (getP ps.1))
    else
      pure (allDl.map (getP store2))

/-- A downloaded paper used twice in one pool: `_precise_selection`'s
`paper not in selected` test compares dataclass values, so two papers with
equal field values are indistinguishable to it. -/
def dupPaper : Paper :=
  { title := "Dup"
    relevance_score := 5
    download_status := DownloadStatus.DOWNLOADED }

/-! ## Theorems -/

theorem insertDesc_perm (key : α → ℚ) (a : α) (l : List α) :
    (insertDesc key a l).Perm (a :: l) := by
  induction l with
  | nil => simp [insertDesc]
  | cons c m ihm =>
    by_cases h : key a < key c
    · simpa [insertDesc, h] using ((ihm.cons c).trans (List.Perm.swap a c m))
    · simp [insertDesc, h]

theorem mem_insertDesc (key : α → ℚ) (a c : α) (l : List α) :
    c ∈ insertDesc key a l ↔ c = a ∨ c ∈ l := by
  rw [(insertDesc_perm key a l).mem_iff]
  simp

theorem sortDesc_perm (key : α → ℚ) (l : List α) : (sortDesc key l).Perm l := by
  induction l with
  | nil => simp [sortDesc]
  | cons a l ih => exact (insertDesc_perm key a (sortDesc key l)).trans (ih.cons a)

theorem insertDesc_sorted (key : α → ℚ) (a : α) (l : List α)
    (h : l.Pairwise (fun x y => key y ≤ key x)) :
    (insertDesc key a l).Pairwise (fun x y => key y ≤ key x) := by
  induction l with
  | nil => simp [insertDesc]
  | cons b l ih =>
    rcases h with _ | ⟨hb, hl⟩
    by_cases hab : key a < key b
    · rw [insertDesc, if_pos hab]
      refine List.Pairwise.cons ?_ (ih hl)
      intro c hc
      rcases (mem_insertDesc key a c l).mp hc with rfl | hcl
      · exact le_of_lt hab
      · exact hb c hcl
    · rw [insertDesc, if_neg hab]
      refine List.Pairwise.cons ?_ (List.Pairwise.cons hb hl)
      intro c hc
      rcases List.mem_cons.mp hc with rfl | hcl
      · exact le_of_not_lt hab
      · exact le_trans (hb c hcl) (le_of_not_lt hab)

theorem sortDesc_sorted (key : α → ℚ) (l : List α) :
    (sortDesc key l).Pairwise (fun x y => key y ≤ key x) := by
  induction l with
  | nil => simp [sortDesc]
  | cons a l ih => exact insertDesc_sorted key a _ ih

/-- Stability: filtering by any fixed key value gives the original sublist. -/
theorem insertDesc_filter_eq (key : α → ℚ) (a : α) (l : List α) (s : ℚ)
    (hsorted : l.Pairwise (fun x y => key y ≤ key x)) :
    (insertDesc key a l).filter (fun x => key x = s)
      = (a :: l).filter (fun x => key x = s) := by
  induction l with
  | nil => rfl
  | cons b l ih =>
    rcases hsorted with _ | ⟨hb, hl⟩
    by_cases hab : key a < key b
    · rw [insertDesc, if_pos hab, List.filter_cons, ih hl, List.filter_cons,
        List.filter_cons, List.filter_cons]
      by_cases has : key a = s
      · have hbs : ¬ (key b = s) := by
          intro h; rw [has] at hab; rw [h] at hab; exact lt_irrefl _ hab
        simp [has, hbs]
      · simp [has]
    · rw [insertDesc, if_neg hab]

theorem sortDesc_filter_eq (key : α → ℚ) (l : List α) (s : ℚ) :
    (sortDesc key l).filter (fun x => key x = s)
      = l.filter (fun x => key x = s) := by
  induction l with
  | nil => simp [sortDesc]
  | cons a l ih =>
    have h := insertDesc_filter_eq key a (sortDesc key l) s (sortDesc_sorted key l)
    rw [sortDesc, h, List.filter_cons, List.filter_cons, ih]

/-! ### Properties of the download layer -/

theorem download_paper_ok_status (d : Downloaders) (p : Paper) (name : String) :
    ((download_paper d p name).ok = true
      ∧ (download_paper d p name).paper.download_status = DownloadStatus.DOWNLOADED)
    ∨ ((download_paper d p name).ok = false
      ∧ (download_paper d p name).paper.download_status = DownloadStatus.FAILED) := by
  unfold download_paper
  dsimp only
  repeat' split
  all_goals first
  | exact Or.inl ⟨rfl, rfl⟩
  | exact Or.inr ⟨rfl, rfl⟩

theorem fixupStatus_journal_type (p : Paper) :
    (fixupStatus p).journal_type = p.journal_type := by
  unfold fixupStatus
  split <;> rfl

/-- C10: after `_download_single_paper` returns, the paper is DOWNLOADED when
the call returns True and FAILED when it returns False — never left as
DOWNLOADING — for any provider outcomes (success, failure or raised
exception) and either institutional mode. -/
theorem download_single_paper_never_downloading (d : Downloaders) (inst : Bool)
    (p : Paper) (name : String) :
    (download_single_paper d inst p name).paper.download_status
      = (if (download_single_paper d inst p name).ok then DownloadStatus.DOWNLOADED
         else DownloadStatus.FAILED)
    ∧ (download_single_paper d inst p name).paper.download_status
        ≠ DownloadStatus.DOWNLOADING := by
  unfold download_single_paper
  cases inst
  · have h := download_paper_ok_status d
      { { p with download_status := DownloadStatus.DOWNLOADING } with
        journal_type := JournalType.NON_ELSEVIER } name
    rcases h with ⟨hok, hst⟩ | ⟨hok, hst⟩ <;>
      simp [hok, hst, fixupStatus]
  · have h := download_paper_ok_status d
      { p with download_status := DownloadStatus.DOWNLOADING } name
    rcases h with ⟨hok, hst⟩ | ⟨hok, hst⟩ <;>
      simp [hok, hst, fixupStatus]

/-- C9: with institutional mode off, `_download_single_paper` restores the
paper's `journal_type` to its pre-attempt value on every path (success,
failure or exception of the underlying download): the scoped override to
NON_ELSEVIER never reaches the persisted tag. -/
theorem download_single_paper_restores_journal_type (d : Downloaders)
    (p : Paper) (name : String) :
    (download_single_paper d false p name).paper.journal_type = p.journal_type := by
  unfold download_single_paper
  simp only [Bool.false_eq_true, if_false]
  split <;> simp [fixupStatus_journal_type]

/-- C3 (divergence witness): with institutional mode off, a paper whose DOI
matches the Elsevier pattern is still routed to the Elsevier downloader
first — `DownloadManager.download_paper` dispatches on `is_elsevier_doi`,
ignoring the temporary `journal_type` override — contradicting the claim
that every attempt goes only to the Anna Archive downloader. -/
theorem institutional_off_still_uses_elsevier :
    (download_single_paper
      ⟨fun _ => DLOutcome.failure, fun _ => DLOutcome.failure⟩ false
      { title := "t", doi := "10.1016/j.test.2020.001",
        journal_type := JournalType.ELSEVIER } "out.pdf").used
      = [Provider.elsevier, Provider.anna] := by
  rfl

/-! ### Properties of `retry_on_failure` -/

/-- C4 counterexample: an operation that always raises an error whose
message contains "403" is attempted 3 times by `retry_on_failure`, not
once — the decorator has no retryable/fatal classification. -/
theorem retry_403_not_short_circuited :
    retry_on_failure 3 1 (fun _ => (Except.error "HTTP 403 Forbidden" : Except String Nat))
      = (Except.error "HTTP 403 Forbidden", 3, [1, 2]) := by
  norm_num [retry_on_failure, retryGo]

/-- C4 (amended): `retry_on_failure(max_retries=3)` treats every error
alike — an operation failing on all attempts (whether its messages contain
"403" or "503") is attempted exactly 3 times, with exponential backoff
sleeps `delay·2^0, delay·2^1` between attempts, and the last error
propagates. -/
theorem retry_uniform_three_attempts (delay : ℚ) (f : Nat → Except String Nat)
    (e0 e1 e2 : String) (h0 : f 0 = .error e0) (h1 : f 1 = .error e1)
    (h2 : f 2 = .error e2) :
    retry_on_failure 3 delay f = (.error e2, 3, [delay, delay * 2]) := by
  simp [retry_on_failure, retryGo, h0, h1, h2]

/-- Witness for `retry_uniform_three_attempts` at an always-"503" operation. -/
theorem retry_uniform_three_attempts_witness :
    retry_on_failure 3 1 (fun _ => (Except.error "HTTP 503 Service Unavailable" : Except String Nat))
      = (.error "HTTP 503 Service Unavailable", 3, [1, 1 * 2]) :=
  retry_uniform_three_attempts 1 _ _ _ _ rfl rfl rfl

/-! ### Properties of the `RateLimiter` -/

/-- Filtering by `w` is unaffected by first filtering with a weaker test. -/
theorem filter_absorb (w q : α → Bool) (l : List α)
    (h : ∀ c ∈ l, w c = true → q c = true) :
    (l.filter q).filter w = l.filter w := by
  induction l with
  | nil => rfl
  | cons a l ih =>
    have ih' := ih (fun c hc => h c (List.mem_cons_of_mem a hc))
    by_cases hw : w a = true
    · have hq : q a = true := h a (List.mem_cons_self a l) hw
      simp [List.filter_cons, hq, hw, ih']
    · by_cases hq : q a = true <;>
        simp [List.filter_cons, hq, Bool.of_not_eq_true hw, ih']

/-- A filter that drops a member is strictly shorter. -/
theorem filter_length_lt (w : α → Bool) (l : List α) (x : α)
    (hx : x ∈ l) (hw : w x = false) : (l.filter w).length < l.length := by
  induction l with
  | nil => cases hx
  | cons a l ih =>
    rcases List.mem_cons.mp hx with rfl | hx'
    · simp only [List.filter_cons, hw]
      exact Nat.lt_succ_of_le (List.length_filter_le w l)
    · by_cases ha : w a = true
      · simpa [List.filter_cons, ha] using Nat.succ_lt_succ (ih hx')
      · simp only [List.filter_cons, Bool.of_not_eq_true ha]
      
        exact Nat.lt_succ_of_lt (ih hx')

/-- Behaviour of one `wait_if_needed` call: the returned state is exactly
the old calls still inside the window of the granted time, plus the granted
time; the clock never moves backwards; and strictly fewer than the ceiling
of old calls remain inside the granted call's window. -/
theorem wait_if_needed_spec (cpm : Nat) (calls : List ℚ) (now1 : ℚ)
    (hcpm : 1 ≤ cpm) (hbound : calls.length ≤ cpm) :
    ∃ now2, wait_if_needed cpm calls now1
        = (calls.filter (fun c => now2 - c < 60) ++ [now2], now2)
      ∧ now1 ≤ now2
      ∧ (calls.filter (fun c => now2 - c < 60)).length < cpm := by
  by_cases hth : cpm ≤ ((calls.filter (fun c => now1 - c < 60)).length)
  · -- throttled: the window is full; one sleep empties a slot
    have hne : calls.filter (fun c => now1 - c < 60) ≠ [] := by
      intro h0
      rw [h0] at hth
      simp at hth
      omega
    have hhead : (calls.filter (fun c => now1 - c < 60)).headD 0
        ∈ calls.filter (fun c => now1 - c < 60) := by
      cases h : calls.filter (fun c => now1 - c < 60) with
      | nil => exact absurd h hne
      | cons a t => simp
    have hlt : now1 - (calls.filter (fun c => now1 - c < 60)).headD 0 < 60 :=
      of_decide_eq_true (List.mem_filter.mp hhead).2
    have hsleep : 0 < 60 - (now1 - (calls.filter (fun c => now1 - c < 60)).headD 0) := by
      linarith
    refine ⟨now1 + (60 - (now1 - (calls.filter (fun c => now1 - c < 60)).headD 0)),
      ?_, by linarith, ?_⟩
    · have himp : ∀ c ∈ calls,
          decide (now1 + (60 - (now1 - (calls.filter (fun c => now1 - c < 60)).headD 0))
            - c < 60) = true → decide (now1 - c < 60) = true := by
        intro c _ hc
        have h1 := of_decide_eq_true hc
        exact decide_eq_true (by linarith)
      unfold wait_if_needed
      rw [if_pos hth]
      dsimp only
      rw [if_pos hsleep]
      rw [filter_absorb _ _ _ himp]
    · have hdrop : (fun c => decide (now1 + (60 - (now1 -
          (calls.filter (fun c => now1 - c < 60)).headD 0)) - c < 60))
          ((calls.filter (fun c => now1 - c < 60)).headD 0) = false := by
        apply decide_eq_false
        intro hcon
        linarith
      have himp : ∀ c ∈ calls,
          decide (now1 + (60 - (now1 - (calls.filter (fun c => now1 - c < 60)).headD 0))
            - c < 60) = true → decide (now1 - c < 60) = true := by
        intro c _ hc
        have h1 := of_decide_eq_true hc
        exact decide_eq_true (by linarith)
      have habs := filter_absorb
        (fun c => decide (now1 + (60 - (now1 -
          (calls.filter (fun c => now1 - c < 60)).headD 0)) - c < 60))
        (fun c => decide (now1 - c < 60)) calls himp
      have h1 := filter_length_lt
        (fun c => decide (now1 + (60 - (now1 -
          (calls.filter (fun c => now1 - c < 60)).headD 0)) - c < 60))
        (calls.filter (fun c => now1 - c < 60))
        ((calls.filter (fun c => now1 - c < 60)).headD 0) hhead hdrop
      rw [habs] at h1
      have h2 : (calls.filter (fun c => now1 - c < 60)).length ≤ calls.length :=
        List.length_filter_le _ _
      omega
  · -- window not full: no sleep, record immediately
    refine ⟨now1, ?_, le_refl now1, by omega⟩
    unfold wait_if_needed
    rw [if_neg hth]

/-- Main invariant run lemma for the rate limiter: starting from any state
whose recorded calls number at most the ceiling, every granted timestamp is
at least the starting clock, and every trailing 60-second window over the
old calls plus all granted timestamps contains at most `cpm` entries. -/
theorem rateLimiterRun_window (cpm : Nat) (hcpm : 1 ≤ cpm) :
    ∀ (gaps calls : List ℚ) (now : ℚ), (∀ g ∈ gaps, 0 ≤ g) →
      calls.length ≤ cpm →
      (∀ t ∈ rateLimiterRun cpm gaps calls now, now ≤ t)
      ∧ ∀ x, windowCount (calls ++ rateLimiterRun cpm gaps calls now) x ≤ cpm := by
  intro gaps
  induction gaps with
  | nil =>
    intro calls now _ hbound
    refine ⟨by simp [rateLimiterRun], ?_⟩
    intro x
    unfold windowCount
    simp only [rateLimiterRun, List.append_nil]
    exact le_trans (List.length_filter_le _ _) hbound
  | cons g rest ih =>
    intro calls now hgaps hbound
    have hg : 0 ≤ g := hgaps g (List.mem_cons_self g rest)
    have hrest : ∀ g' ∈ rest, 0 ≤ g' := fun g' hg' => hgaps g' (List.mem_cons_of_mem g hg')
    obtain ⟨now2, heq, hle, hcount⟩ := wait_if_needed_spec cpm calls (now + g) hcpm hbound
    have hnow2 : now ≤ now2 := by linarith
    set kept := calls.filter (fun c => now2 - c < 60) with hkept
    have hbound' : (kept ++ [now2]).length ≤ cpm := by
      rw [List.length_append]
      simp only [List.length_singleton]
      omega
    obtain ⟨hmem, hwin⟩ := ih (kept ++ [now2]) now2 hrest hbound'
    have hrun : rateLimiterRun cpm (g :: rest) calls now
        = now2 :: rateLimiterRun cpm rest (kept ++ [now2]) now2 := by
      show (let r := wait_if_needed cpm calls (now + g);
            r.2 :: rateLimiterRun cpm rest r.1 r.2)
          = now2 :: rateLimiterRun cpm rest (kept ++ [now2]) now2
      rw [heq]
    rw [hrun]
    constructor
    · intro t ht
      rcases List.mem_cons.mp ht with rfl | ht'
      · exact hnow2
      · exact le_trans hnow2 (hmem t ht')
    · intro x
      set run' := rateLimiterRun cpm rest (kept ++ [now2]) now2 with hrun'
      by_cases hx : x + 60 < now2
      · -- the window ends before the new grant: only old calls can be inside
        have hnone : ∀ t ∈ now2 :: run',
            ¬ ((fun t => decide (x < t ∧ t ≤ x + 60)) t = true) := by
          intro t ht hdec
          obtain ⟨-, h2⟩ := of_decide_eq_true hdec
          rcases List.mem_cons.mp ht with rfl | ht'
          · linarith
          · have := hmem t ht'
            linarith
        unfold windowCount
        rw [List.filter_append, List.length_append,
          List.filter_eq_nil_iff.mpr hnone]
        simp only [List.length_nil, Nat.add_zero]
        exact le_trans (List.length_filter_le _ _) hbound
      · -- the window reaches the new grant: dropped calls are all too old
        push_neg at hx
        have himp : ∀ c ∈ calls, (decide (x < c ∧ c ≤ x + 60)) = true →
            (decide (now2 - c < 60)) = true := by
          intro c _ hc
          obtain ⟨h1, -⟩ := of_decide_eq_true hc
          exact decide_eq_true (by linarith)
        have habs := filter_absorb (fun c => decide (x < c ∧ c ≤ x + 60))
          (fun c => decide (now2 - c < 60)) calls himp
        have hw := hwin x
        unfold windowCount at hw ⊢
        rw [List.filter_append]
        rw [List.append_assoc, List.filter_append] at hw
        have hkeq : List.filter (fun t => decide (x < t ∧ t ≤ x + 60)) kept
            = List.filter (fun t => decide (x < t ∧ t ≤ x + 60)) calls := by
          rw [hkept]
          exact habs
        rw [hkeq] at hw
        simpa using hw

/-- C8: over any sequence of `wait_if_needed` calls on one `RateLimiter`
(simulated clock, non-negative clock advances between calls), no trailing
60-second window `(x, x+60]` ever contains more than `calls_per_minute`
granted acquisitions. -/
theorem rateLimiter_never_exceeds (cpm : Nat) (gaps : List ℚ) (x : ℚ)
    (hcpm : 1 ≤ cpm) (hgaps : ∀ g ∈ gaps, 0 ≤ g) :
    windowCount (rateLimiterRun cpm gaps [] 0) x ≤ cpm := by
  have h := (rateLimiterRun_window cpm hcpm gaps [] 0 hgaps (by simp)).2 x
  simpa using h

/-- Witness for `rateLimiter_never_exceeds`: ceiling 1, two back-to-back
calls; the second is delayed out of the first call's window. -/
theorem rateLimiter_never_exceeds_witness :
    (1 ≤ 1 ∧ ∀ g ∈ ([0, 0] : List ℚ), 0 ≤ g)
      ∧ windowCount (rateLimiterRun 1 [0, 0] [] 0) 0 ≤ 1 :=
  ⟨⟨le_refl 1, by decide⟩,
    rateLimiter_never_exceeds 1 [0, 0] 0 (le_refl 1) (by decide)⟩

/-! ### Properties of the Anna Archive download chain -/

/-- `%PDF` occurs nowhere in an all-zero byte list. -/
theorem seqContains_pdfMagic_replicate_zero (n : Nat) :
    seqContains pdfMagic (List.replicate n 0) = false := by
  induction n with
  | zero => rfl
  | succ n ih =>
    simp only [List.replicate_succ, seqContains, ih, Bool.or_false]
    simp [seqStartsWith, pdfMagic]

/-- C6 counterexample: in `_download_by_md5`, a response accepted solely
because it exceeds 1000 bytes (it neither starts with `%PDF` nor declares a
PDF content type — indeed `%PDF` occurs nowhere in it) is written and
reported as success with no read-back validation: the file is kept holding
non-PDF bytes. -/
theorem md5_size_only_no_revalidation :
    (download_by_md5
      (fun _ => { content := List.replicate 1001 0, contentType := "text/html" }) none)
      = { ok := true, size := 1001, file := some (List.replicate 1001 0) }
    ∧ startsWithPdf (List.replicate 1001 0) = false
    ∧ declaresPdfType "text/html" = false
    ∧ seqContains pdfMagic (List.replicate 1001 0) = false := by
  have hs : startsWithPdf (List.replicate 1001 0) = false := by
    rw [List.replicate_succ]
    simp [startsWithPdf, seqStartsWith, pdfMagic]
  have hd : declaresPdfType "text/html" = false := rfl
  have hlen : (List.replicate 1001 (0 : Nat)).length = 1001 := List.length_replicate _ _
  have hacc : md5AcceptTest
      { content := List.replicate 1001 0, contentType := "text/html" } = true := by
    unfold md5AcceptTest
    dsimp only
    rw [hs, hd, hlen]
    rfl
  refine ⟨?_, hs, hd, seqContains_pdfMagic_replicate_zero 1001⟩
  unfold download_by_md5 downloadByMd5Go
  simp only [hacc, Bool.false_eq_true, if_false, if_true, List.length_replicate]


/-- C6 (amended): the write-then-revalidate-then-delete-if-invalid sequence
holds on the fast-download-URL path: in `_download_from_url`, a response
accepted solely on size (over 50000 bytes, not starting with `%PDF`) is a
success with the file kept exactly when the PDF magic occurs in the 10
bytes read back; otherwise the file is deleted and failure reported.  The
MD5-endpoint path has no such re-validation (see the counterexample). -/
theorem download_from_url_size_only_revalidates (r : HttpResponse)
    (file : Option (List Nat)) (hraise : r.raisesErr = false)
    (hpdf : startsWithPdf r.content = false) (hbig : 50000 < r.content.length) :
    download_from_url r file
      = (if seqContains pdfMagic (r.content.take 10)
         then { ok := true, size := r.content.length, file := some r.content }
         else { ok := false, size := 0, file := none }) := by
  have h1 : ¬ (r.content.length < 1000) := by omega
  unfold download_from_url
  simp only [hraise, Bool.false_eq_true, if_false, h1, hpdf, hbig, if_true]

/-- Witness for `download_from_url_size_only_revalidates`: 50001 bytes that
do not start with `%PDF` but contain it within the first 10 bytes. -/
theorem download_from_url_size_only_revalidates_witness :
    startsWithPdf (0 :: pdfMagic ++ List.replicate 49996 0) = false
    ∧ 50000 < (0 :: pdfMagic ++ List.replicate 49996 0 : List Nat).length
    ∧ download_from_url
        { content := 0 :: pdfMagic ++ List.replicate 49996 0,
          contentType := "application/octet-stream" } none
      = (if seqContains pdfMagic ((0 :: pdfMagic ++ List.replicate 49996 0).take 10)
         then { ok := true, size := (0 :: pdfMagic ++ List.replicate 49996 0 : List Nat).length,
                file := some (0 :: pdfMagic ++ List.replicate 49996 0) }
         else { ok := false, size := 0, file := none }) := by
  have hlen : 50000 < (0 :: pdfMagic ++ List.replicate 49996 0 : List Nat).length := by
    rw [List.length_append, List.length_cons, List.length_replicate]
    norm_num [pdfMagic]
  exact ⟨rfl, hlen,
    download_from_url_size_only_revalidates _ _ rfl rfl hlen⟩

/-! ### Properties of the priority scorer -/

/-- C7: the priority score equals relevance + provider bonus (+3 Elsevier,
else +1) + vintage bonus (+1 for Elsevier with year ≥ 2018; for
non-Elsevier +1 if year ≤ 2019 and +0.5 more if 2010 ≤ year ≤ 2018)
+ min(citations/50, 2); it is a pure function of exactly
(relevance_score, journal_type, year, citation_count) — so recomputation on
identical inputs is identical — and the sort used by
`_calculate_priority_scores` is descending and stable (papers with equal
scores keep their original pool order). -/
theorem priority_score_formula_pure_stable :
    (∀ p : Paper, (setScore p).priority_score
        = p.relevance_score
          + (if p.journal_type = JournalType.ELSEVIER then (3:ℚ) else 1)
          + (if p.journal_type = JournalType.ELSEVIER then
               (if 2018 ≤ p.year then (1:ℚ) else 0)
             else (if p.year ≤ 2019 then (1:ℚ) else 0)
               + (if 2010 ≤ p.year ∧ p.year ≤ 2018 then (1:ℚ)/2 else 0))
          + min ((p.citation_count : ℚ) / 50) 2)
    ∧ (∀ p q : Paper, p.relevance_score = q.relevance_score →
        p.journal_type = q.journal_type → p.year = q.year →
        p.citation_count = q.citation_count →
        (setScore p).priority_score = (setScore q).priority_score)
    ∧ (∀ p : Paper, (setScore (setScore p)).priority_score = (setScore p).priority_score)
    ∧ (∀ (store : List Paper) (pool : List Nat) (st : List Paper) (sorted : List Nat),
        calculate_priority_scores store pool = .ok (st, sorted) →
        sorted.Pairwise (fun i j => scoreKey st j ≤ scoreKey st i)
        ∧ ∀ s : ℚ, sorted.filter (fun i => scoreKey st i = s)
            = pool.filter (fun i => scoreKey st i = s)) := by
  refine ⟨?_, ?_, ?_, ?_⟩
  · intro p
    unfold setScore calcScore
    dsimp only
    by_cases h : p.journal_type = JournalType.ELSEVIER <;> simp [h] <;> ring
  · intro p q h1 h2 h3 h4
    unfold setScore calcScore
    dsimp only
    rw [h1, h2, h3, h4]
  · intro p
    simp [setScore, calcScore]
  · intro store pool st sorted h
    unfold calculate_priority_scores at h
    by_cases he : (sortDesc (scoreKey (updateScores store pool)) pool).isEmpty
    · simp [he] at h
    · simp only [he, Bool.false_eq_true, if_false, Except.ok.injEq, Prod.mk.injEq] at h
      obtain ⟨hst, hsorted⟩ := h
      subst hst
      subst hsorted
      exact ⟨sortDesc_sorted _ _, fun s => sortDesc_filter_eq _ _ _⟩

/-! ### Store access lemmas -/

theorem getP_set_self (store : List Paper) (i : Nat) (p : Paper)
    (h : i < store.length) : getP (store.set i p) i = p := by
  simp [getP, List.getD_eq_getElem?_getD, List.getElem?_set_eq h]

theorem getP_set_ne (store : List Paper) (i j : Nat) (p : Paper)
    (h : i ≠ j) : getP (store.set i p) j = getP store j := by
  simp [getP, List.getD_eq_getElem?_getD, List.getElem?_set_ne h]

theorem updateScores_length (store : List Paper) (pool : List Nat) :
    (updateScores store pool).length = store.length := by
  unfold updateScores
  induction pool generalizing store with
  | nil => rfl
  | cons i rest ih => simpa using ih (store.set i (setScore (getP store i)))

theorem updateScores_not_mem (store : List Paper) (pool : List Nat) (j : Nat)
    (h : j ∉ pool) : getP (updateScores store pool) j = getP store j := by
  unfold updateScores
  induction pool generalizing store with
  | nil => rfl
  | cons i rest ih =>
    have hji : i ≠ j := fun hij => h (hij ▸ List.mem_cons_self i rest)
    have hrest : j ∉ rest := fun hr => h (List.mem_cons_of_mem i hr)
    rw [List.foldl_cons, ih (store.set i (setScore (getP store i))) hrest,
      getP_set_ne store i j _ hji]

theorem updateScores_mem (store : List Paper) (pool : List Nat) (j : Nat)
    (hvalid : ∀ i ∈ pool, i < store.length) (hnodup : pool.Nodup)
    (h : j ∈ pool) : getP (updateScores store pool) j = setScore (getP store j) := by
  unfold updateScores
  induction pool generalizing store with
  | nil => cases h
  | cons i rest ih =>
    rw [List.foldl_cons]
    rcases List.mem_cons.mp h with rfl | hr
    · have hrest : j ∉ rest := (List.nodup_cons.mp hnodup).1
      have hnm := updateScores_not_mem (store.set j (setScore (getP store j))) rest j hrest
      unfold updateScores at hnm
      rw [hnm]
      exact getP_set_self store j _ (hvalid j (List.mem_cons_self j rest))
    · have hvalid' : ∀ k ∈ rest, k < (store.set i (setScore (getP store i))).length := by
        intro k hk
        simpa using hvalid k (List.mem_cons_of_mem i hk)
      have hnodup' : rest.Nodup := (List.nodup_cons.mp hnodup).2
      have hij : i ≠ j := by
        intro hij
        subst hij
        exact (List.nodup_cons.mp hnodup).1 hr
      rw [ih (store.set i (setScore (getP store i))) hvalid' hnodup' hr,
        getP_set_ne store i j _ hij]

theorem getD_mem_of_lt (l : List α) (m : Nat) (d : α) (h : m < l.length) :
    l.getD m d ∈ l := by
  rw [List.getD_eq_getElem?_getD, List.getElem?_eq_getElem h]
  simp

theorem sortDesc_take_dominates (key : α → ℚ) (l : List α) (n : Nat) :
    ∀ i ∈ (sortDesc key l).take n, ∀ j ∈ (sortDesc key l).drop n, key j ≤ key i := by
  have hs := sortDesc_sorted key l
  rw [← List.take_append_drop n (sortDesc key l)] at hs
  exact (List.pairwise_append.mp hs).2.2

/-- Behaviour of the demote loop of `_precise_selection`: selected papers
are untouched, every processed unselected paper is marked SKIPPED, and
nothing else changes.  The invariant is that every slot is either pristine
or already demoted (and then not selected). -/
theorem demote_fold_spec (st1 : List Paper) (sel : List Nat)
    (hsel_status : ∀ j ∈ sel, (getP st1 j).download_status = DownloadStatus.DOWNLOADED) :
    ∀ (l : List Nat) (st : List Paper),
    st.length = st1.length →
    (∀ k, getP st k = getP st1 k ∨ (k ∉ sel ∧
      getP st k = { getP st1 k with download_status := DownloadStatus.SKIPPED })) →
    (∀ k ∈ l, k ∉ sel → ∀ j ∈ sel, getP st1 k ≠ getP st1 j) →
    (∀ k ∈ l, k < st1.length) →
    l.Nodup →
    (demoteUnselected st l sel).length = st1.length
    ∧ (∀ k, k ∉ l → getP (demoteUnselected st l sel) k = getP st k)
    ∧ (∀ k ∈ l, k ∈ sel → getP (demoteUnselected st l sel) k = getP st k)
    ∧ (∀ k ∈ l, k ∉ sel → getP (demoteUnselected st l sel) k
        = { getP st1 k with download_status := DownloadStatus.SKIPPED }) := by
  intro l
  unfold demoteUnselected
  induction l with
  | nil =>
    intro st hlen hinv hdist hvalid hnodup
    exact ⟨hlen, fun k _ => rfl, fun k hk => absurd hk (List.not_mem_nil k),
      fun k hk => absurd hk (List.not_mem_nil k)⟩
  | cons i rest ih =>
    intro st hlen hinv hdist hvalid hnodup
    rw [List.foldl_cons]
    by_cases hisel : i ∈ sel
    · -- selected: the membership test succeeds and nothing changes
      have htest : sel.any (fun j => decide (getP st i = getP st j)) = true :=
        List.any_eq_true.mpr ⟨i, hisel, by simp⟩
      rw [if_pos htest]
      have hdist' : ∀ k ∈ rest, k ∉ sel → ∀ j ∈ sel, getP st1 k ≠ getP st1 j :=
        fun k hk => hdist k (List.mem_cons_of_mem i hk)
      have hvalid' : ∀ k ∈ rest, k < st1.length :=
        fun k hk => hvalid k (List.mem_cons_of_mem i hk)
      obtain ⟨c1, c2, c3, c4⟩ := ih st hlen hinv hdist' hvalid' (List.nodup_cons.mp hnodup).2
      refine ⟨c1, ?_, ?_, ?_⟩
      · intro k hk
        exact c2 k (fun hr => hk (List.mem_cons_of_mem i hr))
      · intro k hk hksel
        rcases List.mem_cons.mp hk with rfl | hkr
        · exact c2 k (List.nodup_cons.mp hnodup).1
        · exact c3 k hkr hksel
      · intro k hk hksel
        rcases List.mem_cons.mp hk with rfl | hkr
        · exact absurd hisel hksel
        · exact c4 k hkr hksel
    · -- unselected: the membership test fails and the paper is demoted
      have htest : sel.any (fun j => decide (getP st i = getP st j)) = false := by
        apply List.any_eq_false.mpr
        intro j hj
        simp only [decide_eq_true_eq]
        have hjval := hinv j
        have hjpr : getP st j = getP st1 j := by
          rcases hjval with h | ⟨hns, -⟩
          · exact h
          · exact absurd hj hns
        rcases hinv i with hival | ⟨-, hival⟩
        · rw [hival, hjpr]
          exact hdist i (List.mem_cons_self i rest) hisel j hj
        · rw [hival, hjpr]
          intro hcon
          have := congrArg Paper.download_status hcon
          simp only at this
          rw [hsel_status j hj] at this
          cases this
      rw [if_neg (by simp [htest])]
      have hlen' : (st.set i { getP st i with
          download_status := DownloadStatus.SKIPPED }).length = st1.length := by
        simpa using hlen
      have hinv' : ∀ k, getP (st.set i { getP st i with
          download_status := DownloadStatus.SKIPPED }) k = getP st1 k
          ∨ (k ∉ sel ∧ getP (st.set i { getP st i with
            download_status := DownloadStatus.SKIPPED }) k
            = { getP st1 k with download_status := DownloadStatus.SKIPPED }) := by
        intro k
        by_cases hik : i = k
        · subst hik
          right
          refine ⟨hisel, ?_⟩
          rw [getP_set_self st i _ (by
            rw [hlen]; exact hvalid i (List.mem_cons_self i rest))]
          rcases hinv i with h | ⟨-, h⟩ <;> rw [h]
        · rw [getP_set_ne st i k _ hik]
          exact hinv k
      have hdist' : ∀ k ∈ rest, k ∉ sel → ∀ j ∈ sel, getP st1 k ≠ getP st1 j :=
        fun k hk => hdist k (List.mem_cons_of_mem i hk)
      have hvalid' : ∀ k ∈ rest, k < st1.length :=
        fun k hk => hvalid k (List.mem_cons_of_mem i hk)
      obtain ⟨c1, c2, c3, c4⟩ := ih _ hlen' hinv' hdist' hvalid' (List.nodup_cons.mp hnodup).2
      have hinotrest : i ∉ rest := (List.nodup_cons.mp hnodup).1
      refine ⟨c1, ?_, ?_, ?_⟩
      · intro k hk
        have hki : i ≠ k := fun h => hk (h ▸ List.mem_cons_self i rest)
        rw [c2 k (fun hr => hk (List.mem_cons_of_mem i hr)), getP_set_ne st i k _ hki]
      · intro k hk hksel
        rcases List.mem_cons.mp hk with rfl | hkr
        · exact absurd hksel hisel
        · have hki : i ≠ k := fun h => hinotrest (h ▸ hkr)
          rw [c3 k hkr hksel, getP_set_ne st i k _ hki]
      · intro k hk hksel
        rcases List.mem_cons.mp hk with rfl | hkr
        · rw [c2 k hinotrest, getP_set_self st k _ (by
            rw [hlen]; exact hvalid k (List.mem_cons_self k rest))]
          rcases hinv k with h | ⟨-, h⟩ <;> rw [h]
        · exact c4 k hkr hksel

/-- Behaviour of the reindex loop of `_precise_selection`. -/
theorem reindex_spec (sel : List Nat) :
    ∀ (st : List Paper) (n : Int), sel.Nodup → (∀ j ∈ sel, j < st.length) →
    (reindexSelected st sel n).length = st.length
    ∧ (∀ k, k ∉ sel → getP (reindexSelected st sel n) k = getP st k)
    ∧ ∀ pos : Nat, pos < sel.length →
        getP (reindexSelected st sel n) (sel.getD pos 0)
          = { getP st (sel.getD pos 0) with paper_index := n + pos } := by
  induction sel with
  | nil =>
    intro st n _ _
    refine ⟨rfl, fun k _ => rfl, ?_⟩
    intro pos hpos
    simp at hpos
  | cons i rest ih =>
    intro st n hnodup hvalid
    unfold reindexSelected
    have hirest : i ∉ rest := (List.nodup_cons.mp hnodup).1
    have hvalid' : ∀ j ∈ rest, j < (st.set i { getP st i with paper_index := n }).length := by
      intro j hj
      simpa using hvalid j (List.mem_cons_of_mem i hj)
    obtain ⟨c1, c2, c3⟩ := ih (st.set i { getP st i with paper_index := n }) (n + 1)
      (List.nodup_cons.mp hnodup).2 hvalid'
    refine ⟨by simpa using c1, ?_, ?_⟩
    · intro k hk
      have hki : i ≠ k := fun h => hk (h ▸ List.mem_cons_self i rest)
      rw [c2 k (fun hr => hk (List.mem_cons_of_mem i hr)), getP_set_ne st i k _ hki]
    · intro pos hpos
      cases pos with
      | zero =>
        have hgd : (i :: rest).getD 0 0 = i := rfl
        rw [hgd, c2 i hirest, getP_set_self st i _ (hvalid i (List.mem_cons_self i rest))]
        simp
      | succ m =>
        have hgd : (i :: rest).getD (m + 1) 0 = rest.getD m 0 := rfl
        have hm : m < rest.length := by simpa using hpos
        rw [hgd, c3 m hm]
        have hmem : rest.getD m 0 ∈ rest := getD_mem_of_lt rest m 0 hm
        have hki : i ≠ rest.getD m 0 := fun h => hirest (h ▸ hmem)
        rw [getP_set_ne st i _ _ hki]
        congr 1
        push_cast
        ring

theorem setScore_download_status (p : Paper) :
    (setScore p).download_status = p.download_status := rfl

theorem setScore_priority (p : Paper) :
    (setScore p).priority_score
      = calcScore p.relevance_score p.journal_type p.year p.citation_count := rfl

/-- C2: `_precise_selection`, applied to M > targetCount successfully
downloaded papers with pairwise-distinct (rescored) values, keeps exactly
the targetCount highest-scoring papers — still DOWNLOADED and in
descending score order — demotes exactly the remaining M − targetCount
papers to SKIPPED, and reassigns the kept papers' sequence indices densely
as `1..targetCount` in that order. -/
theorem precise_selection_spec (store : List Paper) (allIdx : List Nat)
    (targetCount : Nat)
    (hM : targetCount < allIdx.length)
    (hnodup : allIdx.Nodup)
    (hvalid : ∀ i ∈ allIdx, i < store.length)
    (hstatus : ∀ i ∈ allIdx, (getP store i).download_status = DownloadStatus.DOWNLOADED)
    (hinj : ∀ i ∈ allIdx, ∀ j ∈ allIdx,
      setScore (getP store i) = setScore (getP store j) → i = j) :
    precise_selection store allIdx targetCount
        = .ok (reindexSelected
            (demoteUnselected (updateScores store allIdx) allIdx
              ((sortDesc (scoreKey (updateScores store allIdx)) allIdx).take targetCount))
            ((sortDesc (scoreKey (updateScores store allIdx)) allIdx).take targetCount) 1,
          (sortDesc (scoreKey (updateScores store allIdx)) allIdx).take targetCount)
      ∧ ((sortDesc (scoreKey (updateScores store allIdx)) allIdx).take targetCount).length
          = targetCount
      ∧ (∀ i ∈ (sortDesc (scoreKey (updateScores store allIdx)) allIdx).take targetCount,
          i ∈ allIdx)
      ∧ (∀ i ∈ (sortDesc (scoreKey (updateScores store allIdx)) allIdx).take targetCount,
          (getP (reindexSelected
            (demoteUnselected (updateScores store allIdx) allIdx
              ((sortDesc (scoreKey (updateScores store allIdx)) allIdx).take targetCount))
            ((sortDesc (scoreKey (updateScores store allIdx)) allIdx).take targetCount) 1)
            i).download_status = DownloadStatus.DOWNLOADED)
      ∧ (∀ i ∈ allIdx,
          i ∉ (sortDesc (scoreKey (updateScores store allIdx)) allIdx).take targetCount →
          (getP (reindexSelected
            (demoteUnselected (updateScores store allIdx) allIdx
              ((sortDesc (scoreKey (updateScores store allIdx)) allIdx).take targetCount))
            ((sortDesc (scoreKey (updateScores store allIdx)) allIdx).take targetCount) 1)
            i).download_status = DownloadStatus.SKIPPED)
      ∧ (allIdx.filter (fun i => decide
          (i ∉ (sortDesc (scoreKey (updateScores store allIdx)) allIdx).take targetCount))).length
          = allIdx.length - targetCount
      ∧ (∀ i ∈ (sortDesc (scoreKey (updateScores store allIdx)) allIdx).take targetCount,
          ∀ j ∈ allIdx,
          j ∉ (sortDesc (scoreKey (updateScores store allIdx)) allIdx).take targetCount →
          (setScore (getP store j)).priority_score
            ≤ (setScore (getP store i)).priority_score)
      ∧ (∀ pos : Nat, pos < targetCount →
          (getP (reindexSelected
            (demoteUnselected (updateScores store allIdx) allIdx
              ((sortDesc (scoreKey (updateScores store allIdx)) allIdx).take targetCount))
            ((sortDesc (scoreKey (updateScores store allIdx)) allIdx).take targetCount) 1)
            (((sortDesc (scoreKey (updateScores store allIdx)) allIdx).take targetCount).getD
              pos 0)).paper_index = 1 + pos)
      ∧ ((sortDesc (scoreKey (updateScores store allIdx)) allIdx).take targetCount).Pairwise
          (fun i j => (setScore (getP store j)).priority_score
            ≤ (setScore (getP store i)).priority_score) := by
  have hlen0 : 0 < allIdx.length := lt_of_le_of_lt (Nat.zero_le _) hM
  set st1 := updateScores store allIdx with hst1
  set key := scoreKey st1 with hkey
  set sortedIdx := sortDesc key allIdx with hsortedIdx
  have hperm : sortedIdx.Perm allIdx := sortDesc_perm key allIdx
  have hsortlen : sortedIdx.length = allIdx.length := hperm.length_eq
  have hsortnodup : sortedIdx.Nodup := hperm.nodup_iff.mpr hnodup
  have hsortmem : ∀ i, i ∈ sortedIdx ↔ i ∈ allIdx := fun i => hperm.mem_iff
  set sel0 := sortedIdx.take targetCount with hsel
  have hsellen : sel0.length = targetCount := by
    rw [hsel, List.length_take, hsortlen]
    omega
  have hselsub : ∀ i ∈ sel0, i ∈ allIdx := by
    intro i hi
    exact (hsortmem i).mp (List.mem_of_mem_take hi)
  have hselnodup : sel0.Nodup := hsortnodup.sublist (List.take_sublist _ _)
  -- the freshly computed key of a pool member is its rescored priority
  have hkeyval : ∀ i ∈ allIdx, key i = (setScore (getP store i)).priority_score := by
    intro i hi
    rw [hkey, hst1]
    unfold scoreKey
    rw [updateScores_mem store allIdx i hvalid hnodup hi]
  have hst1len : st1.length = store.length := updateScores_length store allIdx
  have hst1val : ∀ i ∈ allIdx, getP st1 i = setScore (getP store i) :=
    fun i hi => updateScores_mem store allIdx i hvalid hnodup hi
  have hst1status : ∀ i ∈ allIdx, (getP st1 i).download_status = DownloadStatus.DOWNLOADED := by
    intro i hi
    rw [hst1val i hi, setScore_download_status]
    exact hstatus i hi
  -- the scoring call succeeds
  have hcps : calculate_priority_scores store allIdx = .ok (st1, sortedIdx) := by
    have hne : sortedIdx ≠ [] := by
      intro h
      rw [h] at hsortlen
      simp at hsortlen
      omega
    unfold calculate_priority_scores
    dsimp only
    rw [← hst1, ← hkey, ← hsortedIdx]
    cases hcase : sortedIdx with
    | nil => exact absurd hcase hne
    | cons a t => rfl
  -- run the demote fold
  have hseldist : ∀ k ∈ allIdx, k ∉ sel0 → ∀ j ∈ sel0, getP st1 k ≠ getP st1 j := by
    intro k hk hksel j hj hcon
    rw [hst1val k hk, hst1val j (hselsub j hj)] at hcon
    exact hksel ((hinj k hk j (hselsub j hj) hcon) ▸ hj)
  have hvalid1 : ∀ k ∈ allIdx, k < st1.length := by
    intro k hk
    rw [hst1len]
    exact hvalid k hk
  obtain ⟨f1, f2, f3, f4⟩ := demote_fold_spec st1 sel0
    (fun j hj => hst1status j (hselsub j hj)) allIdx st1 rfl
    (fun k => Or.inl rfl) hseldist hvalid1 hnodup
  set st2 := demoteUnselected st1 allIdx sel0 with hst2
  have g1 : st2.length = st1.length := f1
  have g3 : ∀ k ∈ allIdx, k ∈ sel0 → getP st2 k = getP st1 k := f3
  have g4 : ∀ k ∈ allIdx, k ∉ sel0 → getP st2 k
      = { getP st1 k with download_status := DownloadStatus.SKIPPED } := f4
  -- run the reindex pass
  have hselvalid2 : ∀ j ∈ sel0, j < st2.length := by
    intro j hj
    rw [g1, hst1len]
    exact hvalid j (hselsub j hj)
  obtain ⟨r1, r2, r3⟩ := reindex_spec sel0 st2 1 hselnodup hselvalid2
  set st3 := reindexSelected st2 sel0 1 with hst3
  have hcomp : precise_selection store allIdx targetCount = .ok (st3, sel0) := by
    unfold precise_selection
    rw [if_neg (by omega)]
    rw [hcps]
    rfl
  refine ⟨hcomp, hsellen, hselsub, ?_, ?_, ?_, ?_, ?_, ?_⟩
  · -- selected papers stay DOWNLOADED
    intro i hi
    obtain ⟨pos, hpos, hval⟩ := List.mem_iff_getElem.mp hi
    have hgd : sel0.getD pos 0 = i := by
      rw [List.getD_eq_getElem?_getD, List.getElem?_eq_getElem hpos, hval]
      rfl
    have hr := r3 pos (by omega)
    rw [hgd] at hr
    have hr' : getP st3 i = { getP st2 i with paper_index := 1 + (pos : Int) } := hr
    rw [hr']
    show (getP st2 i).download_status = DownloadStatus.DOWNLOADED
    rw [g3 i (hselsub i hi) hi]
    exact hst1status i (hselsub i hi)
  · -- unselected papers are demoted
    intro i hi hisel
    have hr2 : getP st3 i = getP st2 i := r2 i hisel
    rw [hr2, g4 i hi hisel]
  · -- exactly M − N are demoted
    have hfeq : allIdx.filter (fun i => decide (i ∉ sel0))
        = allIdx.filter (fun i => !(decide (i ∈ sel0))) := by
      apply List.filter_congr
      intro i _
      simp [decide_not]
    have hpart := List.length_eq_length_filter_add
      (l := allIdx) (fun i => decide (i ∈ sel0))
    have hselfilter : (allIdx.filter (fun i => decide (i ∈ sel0))).length = targetCount := by
      have hmemiff : ∀ x, x ∈ allIdx.filter (fun i => decide (i ∈ sel0)) ↔ x ∈ sel0 := by
        intro x
        rw [List.mem_filter]
        simp only [decide_eq_true_eq]
        exact ⟨fun h => h.2, fun h => ⟨hselsub x h, h⟩⟩
      have hfnodup : (allIdx.filter (fun i => decide (i ∈ sel0))).Nodup :=
        hnodup.filter _
      have hplen := ((List.perm_ext_iff_of_nodup hfnodup hselnodup).mpr hmemiff).length_eq
      rw [hplen, hsellen]
    rw [hfeq]
    omega
  · -- every kept paper scores at least every demoted paper
    intro i hi j hj hjsel
    have hjdrop : j ∈ sortedIdx.drop targetCount := by
      have hjsorted : j ∈ sortedIdx := (hsortmem j).mpr hj
      rw [← List.take_append_drop targetCount sortedIdx] at hjsorted
      rcases List.mem_append.mp hjsorted with h | h
      · exact absurd (hsel ▸ h) hjsel
      · exact h
    have hdom := sortDesc_take_dominates key allIdx targetCount i (hsel ▸ hi) j hjdrop
    rw [hkeyval i (hselsub i hi), hkeyval j hj] at hdom
    exact hdom
  · -- dense reindexing 1..targetCount
    intro pos hpos
    have hr := r3 pos (by omega)
    have hr' : getP st3 (sel0.getD pos 0)
        = { getP st2 (sel0.getD pos 0) with paper_index := 1 + (pos : Int) } := hr
    rw [hr']
  · -- the kept papers are in descending score order
    have hpw : sortedIdx.Pairwise (fun i j => key j ≤ key i) := sortDesc_sorted key allIdx
    have hpwsel : sel0.Pairwise (fun i j => key j ≤ key i) :=
      hpw.sublist (List.take_sublist _ _)
    refine List.Pairwise.imp_of_mem ?_ hpwsel
    intro i j hi hj h
    rw [hkeyval i (hselsub i hi), hkeyval j (hselsub j hj)] at h
    exact h

/-- Witness for `precise_selection_spec`: two downloaded papers, target 1;
exactly one is demoted. -/
theorem precise_selection_spec_witness :
    precise_selection
      [{ title := "A", relevance_score := 5, download_status := DownloadStatus.DOWNLOADED },
       { title := "B", relevance_score := 3, download_status := DownloadStatus.DOWNLOADED }]
      [0, 1] 1
      = .ok (reindexSelected
          (demoteUnselected (updateScores [{ title := "A", relevance_score := 5, download_status := DownloadStatus.DOWNLOADED },
       { title := "B", relevance_score := 3, download_status := DownloadStatus.DOWNLOADED }] [0, 1]) [0, 1]
            ((sortDesc (scoreKey (updateScores [{ title := "A", relevance_score := 5, download_status := DownloadStatus.DOWNLOADED },
       { title := "B", relevance_score := 3, download_status := DownloadStatus.DOWNLOADED }] [0, 1])) [0, 1]).take 1))
          ((sortDesc (scoreKey (updateScores [{ title := "A", relevance_score := 5, download_status := DownloadStatus.DOWNLOADED },
       { title := "B", relevance_score := 3, download_status := DownloadStatus.DOWNLOADED }] [0, 1])) [0, 1]).take 1) 1,
          ((sortDesc (scoreKey (updateScores [{ title := "A", relevance_score := 5, download_status := DownloadStatus.DOWNLOADED },
       { title := "B", relevance_score := 3, download_status := DownloadStatus.DOWNLOADED }] [0, 1])) [0, 1]).take 1))
    ∧ ([0, 1].filter (fun i => decide (i ∉ ((sortDesc (scoreKey (updateScores [{ title := "A", relevance_score := 5, download_status := DownloadStatus.DOWNLOADED },
       { title := "B", relevance_score := 3, download_status := DownloadStatus.DOWNLOADED }] [0, 1])) [0, 1]).take 1)))).length = 2 - 1 := by
  have h := precise_selection_spec
    [{ title := "A", relevance_score := 5, download_status := DownloadStatus.DOWNLOADED },
       { title := "B", relevance_score := 3, download_status := DownloadStatus.DOWNLOADED }]
    [0, 1] 1 (by decide) (by decide) (by decide) (by decide)
    (by
      intro i hi j hj hcon
      have ht : (setScore (getP [{ title := "A", relevance_score := 5, download_status := DownloadStatus.DOWNLOADED },
       { title := "B", relevance_score := 3, download_status := DownloadStatus.DOWNLOADED }] i)).title
          = (setScore (getP [{ title := "A", relevance_score := 5, download_status := DownloadStatus.DOWNLOADED },
       { title := "B", relevance_score := 3, download_status := DownloadStatus.DOWNLOADED }] j)).title := congrArg Paper.title hcon
      fin_cases hi <;> fin_cases hj <;> first | rfl | (revert ht; decide))
  exact ⟨h.1, h.2.2.2.2.2.1⟩

/-- C2, counterexample: on a pool of two value-identical DOWNLOADED papers
(M = 2) with targetCount 1, `_precise_selection` demotes nobody — the
value-based `paper not in selected` test spares the unselected duplicate,
which stays DOWNLOADED — so 0 papers end SKIPPED, not the claimed
M − targetCount = 1. -/
theorem precise_selection_duplicate_spared :
    precise_selection [dupPaper, dupPaper] [0, 1] 1
      = .ok ([{ setScore dupPaper with paper_index := 1 }, setScore dupPaper], [0])
    ∧ ([{ setScore dupPaper with paper_index := 1 }, setScore dupPaper].filter
        (fun p => p.download_status = DownloadStatus.SKIPPED)).length = 0
    ∧ (0 : Nat) ≠ [0, 1].length - 1 := by
  refine ⟨?_, by decide, by decide⟩
  have hnlt : ¬ scoreKey (updateScores [dupPaper, dupPaper] [0, 1]) 0
      < scoreKey (updateScores [dupPaper, dupPaper] [0, 1]) 1 := lt_irrefl _
  have hsort : sortDesc (scoreKey (updateScores [dupPaper, dupPaper] [0, 1])) [0, 1]
      = [0, 1] := by
    simp only [sortDesc, insertDesc]
    rw [if_neg hnlt]
  have hcps : calculate_priority_scores [dupPaper, dupPaper] [0, 1]
      = .ok (updateScores [dupPaper, dupPaper] [0, 1], [0, 1]) := by
    unfold calculate_priority_scores
    dsimp only
    rw [hsort]
    rfl
  have hps : precise_selection [dupPaper, dupPaper] [0, 1] 1
      = .ok (reindexSelected
          (demoteUnselected (updateScores [dupPaper, dupPaper] [0, 1]) [0, 1] [0]) [0] 1,
        [0]) := by
    unfold precise_selection
    rw [if_neg (by decide : ¬(List.length [0, 1] ≤ 1))]
    rw [hcps]
    rfl
  have hdem : demoteUnselected (updateScores [dupPaper, dupPaper] [0, 1]) [0, 1] [0]
      = [setScore dupPaper, setScore dupPaper] := by
    have hup : updateScores [dupPaper, dupPaper] [0, 1]
        = [setScore dupPaper, setScore dupPaper] := rfl
    rw [hup]
    simp [demoteUnselected, getP]
  have hre : reindexSelected [setScore dupPaper, setScore dupPaper] [0] 1
      = [{ setScore dupPaper with paper_index := 1 }, setScore dupPaper] := rfl
  rw [hps, hdem, hre]

/-! ### The orchestrator end-to-end -/

/-- C5 (divergence witness): on the empty candidate pool,
`ensure_target_downloads` raises IndexError — `_calculate_priority_scores`
reads `scored_papers[0]` in its summary log line on an empty list —
instead of returning the empty below-target set. -/
theorem ensure_target_downloads_empty_pool_raises :
    ensure_target_downloads ⟨fun _ => DLOutcome.failure, fun _ => DLOutcome.failure⟩
      false (fun _ => "paper.pdf") [] 5 = .error PyErr.indexError := by
  rfl

theorem download_paper_paper_index (d : Downloaders) (p : Paper) (name : String) :
    (download_paper d p name).paper.paper_index = p.paper_index := by
  unfold download_paper markDownloaded
  dsimp only
  repeat' split
  all_goals rfl

theorem download_paper_title (d : Downloaders) (p : Paper) (name : String) :
    (download_paper d p name).paper.title = p.title := by
  unfold download_paper markDownloaded
  dsimp only
  repeat' split
  all_goals rfl

theorem download_paper_priority (d : Downloaders) (p : Paper) (name : String) :
    (download_paper d p name).paper.priority_score = p.priority_score := by
  unfold download_paper markDownloaded
  dsimp only
  repeat' split
  all_goals rfl

theorem fixupStatus_paper_index (p : Paper) :
    (fixupStatus p).paper_index = p.paper_index := by
  unfold fixupStatus
  split <;> rfl

theorem fixupStatus_title (p : Paper) : (fixupStatus p).title = p.title := by
  unfold fixupStatus
  split <;> rfl

theorem fixupStatus_priority (p : Paper) :
    (fixupStatus p).priority_score = p.priority_score := by
  unfold fixupStatus
  split <;> rfl

theorem download_single_paper_preserves (d : Downloaders) (inst : Bool)
    (p : Paper) (name : String) :
    (download_single_paper d inst p name).paper.paper_index = p.paper_index
    ∧ (download_single_paper d inst p name).paper.title = p.title
    ∧ (download_single_paper d inst p name).paper.priority_score = p.priority_score := by
  unfold download_single_paper
  dsimp only
  repeat' split
  all_goals refine ⟨?_, ?_, ?_⟩ <;>
    simp [fixupStatus_paper_index, fixupStatus_title, fixupStatus_priority,
      download_paper_paper_index, download_paper_title, download_paper_priority]

theorem processOne_spec (d : Downloaders) (inst : Bool) (pdfName : Paper → String)
    (hallok : ∀ p name, p.doi ≠ "" → (download_single_paper d inst p name).ok = true)
    (p : Paper) (hdoi : p.doi ≠ "") :
    (processOne d inst pdfName p).2 = true
    ∧ (processOne d inst pdfName p).1.download_status = DownloadStatus.DOWNLOADED
    ∧ (processOne d inst pdfName p).1.paper_index = p.paper_index
    ∧ (processOne d inst pdfName p).1.title = p.title
    ∧ (processOne d inst pdfName p).1.priority_score = p.priority_score := by
  unfold processOne
  dsimp only
  set p0 := { p with download_status := DownloadStatus.DOWNLOADING } with hp0
  have hok := hallok p0 (pdfName p0) (by simpa [hp0] using hdoi)
  obtain ⟨d1, d2, d3⟩ := download_single_paper_preserves d inst p0 (pdfName p0)
  rw [hok]
  simp [d1, d2, d3, hp0]

/-- Behaviour of the download loop when every attempt succeeds: exactly the
first `targetCount − succ.length` papers of the priority order are
attempted and appended as successes (DOWNLOADED), their identifying fields
and scores unchanged; everything else is untouched. -/
theorem downloadPhaseLoop_allsuccess (d : Downloaders) (inst : Bool)
    (pdfName : Paper → String) (targetCount : Nat)
    (hallok : ∀ p name, p.doi ≠ "" → (download_single_paper d inst p name).ok = true) :
    ∀ (idxs : List Nat) (store : List Paper) (succ : List Nat),
    succ.length < targetCount → targetCount ≤ succ.length + idxs.length →
    idxs.Nodup → (∀ i ∈ idxs, i < store.length) →
    (∀ i ∈ idxs, (getP store i).doi ≠ "") →
    (downloadPhaseLoop d inst pdfName targetCount idxs store succ).2
        = succ ++ idxs.take (targetCount - succ.length)
    ∧ (downloadPhaseLoop d inst pdfName targetCount idxs store succ).1.length
        = store.length
    ∧ (∀ k, k ∉ idxs →
        getP (downloadPhaseLoop d inst pdfName targetCount idxs store succ).1 k
          = getP store k)
    ∧ (∀ j ∈ idxs.take (targetCount - succ.length),
        (getP (downloadPhaseLoop d inst pdfName targetCount idxs store succ).1 j).download_status
            = DownloadStatus.DOWNLOADED
        ∧ (getP (downloadPhaseLoop d inst pdfName targetCount idxs store succ).1 j).paper_index
            = (getP store j).paper_index
        ∧ (getP (downloadPhaseLoop d inst pdfName targetCount idxs store succ).1 j).title
            = (getP store j).title
        ∧ (getP (downloadPhaseLoop d inst pdfName targetCount idxs store succ).1 j).priority_score
            = (getP store j).priority_score) := by
  intro idxs
  induction idxs with
  | nil =>
    intro store succ h1 h2 _ _ _
    rw [List.length_nil, Nat.add_zero] at h2
    exact absurd h1 (by omega)
  | cons i rest ih =>
    intro store succ h1 h2 hnodup hvalid hdois
    obtain ⟨o1, o2, o3, o4, o5⟩ := processOne_spec d inst pdfName hallok (getP store i)
      (hdois i (List.mem_cons_self i rest))
    have hilt : i < store.length := hvalid i (List.mem_cons_self i rest)
    have hirest : i ∉ rest := (List.nodup_cons.mp hnodup).1
    simp only [downloadPhaseLoop, o1, if_true]
    by_cases hfull : targetCount ≤ (succ ++ [i]).length
    · -- the target is reached with this success
      have hlen : targetCount - succ.length = 1 := by
        rw [List.length_append, List.length_singleton] at hfull
        omega
      rw [if_pos hfull, hlen, List.take_succ_cons, List.take_zero]
      refine ⟨rfl, by simp, ?_, ?_⟩
      · intro k hk
        have hki : i ≠ k := fun h => hk (h ▸ List.mem_cons_self i rest)
        exact getP_set_ne store i k _ hki
      · intro j hj
        rw [List.mem_singleton] at hj
        subst hj
        rw [getP_set_self store j _ hilt]
        exact ⟨o2, o3, o4, o5⟩
    · -- recurse on the rest
      rw [if_neg hfull]
      rw [List.length_append, List.length_singleton] at hfull
      have h1' : (succ ++ [i]).length < targetCount := by
        rw [List.length_append, List.length_singleton]
        omega
      have h2' : targetCount ≤ (succ ++ [i]).length + rest.length := by
        rw [List.length_append, List.length_singleton]
        rw [List.length_cons] at h2
        omega
      have hvalid' : ∀ k ∈ rest, k < (store.set i
          (processOne d inst pdfName (getP store i)).1).length := by
        intro k hk
        simpa using hvalid k (List.mem_cons_of_mem i hk)
      have hdois' : ∀ k ∈ rest, (getP (store.set i
          (processOne d inst pdfName (getP store i)).1) k).doi ≠ "" := by
        intro k hk
        have hki : i ≠ k := fun h => hirest (h ▸ hk)
        rw [getP_set_ne store i k _ hki]
        exact hdois k (List.mem_cons_of_mem i hk)
      obtain ⟨c1, c2, c3, c4⟩ := ih (store.set i (processOne d inst pdfName (getP store i)).1)
        (succ ++ [i]) h1' h2' (List.nodup_cons.mp hnodup).2 hvalid' hdois'
      have harith : targetCount - succ.length = (targetCount - (succ.length + 1)) + 1 := by
        omega
      have htakes : (i :: rest).take (targetCount - succ.length)
          = i :: rest.take (targetCount - (succ.length + 1)) := by
        rw [harith, List.take_succ_cons]
      have hsuccarith : targetCount - (succ ++ [i]).length
          = targetCount - (succ.length + 1) := by
        rw [List.length_append, List.length_singleton]
      refine ⟨?_, ?_, ?_, ?_⟩
      · rw [c1, hsuccarith, htakes, List.append_assoc]
        rfl
      · rw [c2]
        simp
      · intro k hk
        have hki : i ≠ k := fun h => hk (h ▸ List.mem_cons_self i rest)
        have hkrest : k ∉ rest := fun h => hk (List.mem_cons_of_mem i h)
        rw [c3 k hkrest, getP_set_ne store i k _ hki]
      · intro j hj
        rw [htakes] at hj
        rcases List.mem_cons.mp hj with rfl | hjr
        · have hjr2 : j ∉ rest.take (targetCount - (succ.length + 1)) :=
            fun h => hirest (List.mem_of_mem_take h)
          rw [c3 j hirest, getP_set_self store j _ hilt]
          exact ⟨o2, o3, o4, o5⟩
        · have hji : i ≠ j := fun h => hirest (h ▸ List.mem_of_mem_take hjr)
          have := c4 j (by rwa [hsuccarith])
          rwa [getP_set_ne store i j _ hji] at this

theorem except_bind_ok (x : α) (f : α → Except ε β) :
    (Except.ok x : Except ε α) >>= f = f x := rfl

/-- C1 (amended): for a pool of at least `targetCount ≥ 1` papers whose
retrieval attempts all succeed, `ensure_target_downloads` returns exactly
`targetCount` papers, each DOWNLOADED, ordered by descending priority
score; their `paper_index` fields keep the input papers' values — the
phase-1 return path performs no reindexing, so they are not reassigned to
`1..targetCount`. -/
theorem ensure_target_downloads_allsuccess (d : Downloaders) (inst : Bool)
    (pdfName : Paper → String) (papers : List Paper) (targetCount : Nat)
    (res : List Paper)
    (htarget : 1 ≤ targetCount) (hpool : targetCount ≤ papers.length)
    (hdois : ∀ p ∈ papers, p.doi ≠ "")
    (hallok : ∀ p name, p.doi ≠ "" → (download_single_paper d inst p name).ok = true)
    (heq : ensure_target_downloads d inst pdfName papers targetCount = .ok res) :
    res.length = targetCount
    ∧ (∀ p ∈ res, p.download_status = DownloadStatus.DOWNLOADED)
    ∧ res.Pairwise (fun p q => q.priority_score ≤ p.priority_score)
    ∧ (∀ p ∈ res, ∃ q ∈ papers, q.paper_index = p.paper_index ∧ q.title = p.title) := by
  set pool := List.range papers.length with hpool0
  have hpoolnodup : pool.Nodup := List.nodup_range _
  have hpoolvalid : ∀ i ∈ pool, i < papers.length := by
    intro i hi
    rw [hpool0] at hi
    exact List.mem_range.mp hi
  set st1 := updateScores papers pool with hst1
  set key := scoreKey st1 with hkey
  set sorted := sortDesc key pool with hsorted
  have hperm : sorted.Perm pool := sortDesc_perm key pool
  have hsortlen : sorted.length = papers.length := by
    rw [hperm.length_eq, hpool0, List.length_range]
  have hsortnodup : sorted.Nodup := hperm.nodup_iff.mpr hpoolnodup
  have hsortmem : ∀ i, i ∈ sorted ↔ i ∈ pool := fun i => hperm.mem_iff
  have hst1len : st1.length = papers.length := updateScores_length papers pool
  have hcps : calculate_priority_scores papers pool = .ok (st1, sorted) := by
    have hne : sorted ≠ [] := by
      intro h
      rw [h] at hsortlen
      simp at hsortlen
      omega
    unfold calculate_priority_scores
    dsimp only
    rw [← hst1, ← hkey, ← hsorted]
    cases hcase : sorted with
    | nil => exact absurd hcase hne
    | cons a t => rfl
  have hsortvalid : ∀ i ∈ sorted, i < st1.length := by
    intro i hi
    rw [hst1len]
    exact hpoolvalid i ((hsortmem i).mp hi)
  have hsortdois : ∀ i ∈ sorted, (getP st1 i).doi ≠ "" := by
    intro i hi
    have hip : i ∈ pool := (hsortmem i).mp hi
    have hilt : i < papers.length := hpoolvalid i hip
    rw [updateScores_mem papers pool i hpoolvalid hpoolnodup hip]
    show (getP papers i).doi ≠ ""
    exact hdois (getP papers i) (getD_mem_of_lt papers i defaultPaper hilt)
  obtain ⟨c1, c2, c3, c4⟩ := downloadPhaseLoop_allsuccess d inst pdfName targetCount
    hallok sorted st1 [] (by simpa using htarget)
    (by rw [List.length_nil, Nat.zero_add, hsortlen]; exact hpool)
    hsortnodup hsortvalid hsortdois
  simp only [List.length_nil, Nat.sub_zero, List.nil_append] at c1 c4
  set store2 := (downloadPhaseLoop d inst pdfName targetCount sorted st1 []).1 with hstore2
  set succ1 := (downloadPhaseLoop d inst pdfName targetCount sorted st1 []).2 with hsucc1
  have htakelen : (sorted.take targetCount).length = targetCount := by
    rw [List.length_take, hsortlen]
    omega
  have hsucc1len : succ1.length = targetCount := by
    rw [c1]
    exact htakelen
  have hph1 : priority_download_phase d inst pdfName papers pool targetCount
      = .ok (store2, succ1) := by
    unfold priority_download_phase
    rw [hcps]
    rfl
  have hens : ensure_target_downloads d inst pdfName papers targetCount
      = .ok ((succ1.take targetCount).map (getP store2)) := by
    unfold ensure_target_downloads
    dsimp only
    rw [← hpool0, hph1, except_bind_ok]
    dsimp only
    rw [if_pos (le_of_eq hsucc1len.symm)]
    rfl
  rw [hens] at heq
  have hres : res = (succ1.take targetCount).map (getP store2) :=
    (Except.ok.injEq _ _ ▸ heq).symm
  have hsucc1take : succ1.take targetCount = sorted.take targetCount := by
    rw [c1]
    exact List.take_of_length_le (le_of_eq htakelen)
  rw [hsucc1take] at hres
  subst hres
  refine ⟨?_, ?_, ?_, ?_⟩
  · rw [List.length_map, htakelen]
  · intro p hp
    obtain ⟨j, hj, hjp⟩ := List.mem_map.mp hp
    obtain ⟨s1, -, -, -⟩ := c4 j hj
    rw [← hjp]
    exact s1
  · rw [List.pairwise_map]
    have hpw : sorted.Pairwise (fun i j => key j ≤ key i) := sortDesc_sorted key pool
    have hpwt : (sorted.take targetCount).Pairwise (fun i j => key j ≤ key i) :=
      hpw.sublist (List.take_sublist _ _)
    refine List.Pairwise.imp_of_mem ?_ hpwt
    intro i j hi hj h
    obtain ⟨-, -, -, p1⟩ := c4 i hi
    obtain ⟨-, -, -, p2⟩ := c4 j hj
    rw [p1, p2]
    exact h
  · intro p hp
    obtain ⟨j, hj, hjp⟩ := List.mem_map.mp hp
    have hjpool : j ∈ pool := (hsortmem j).mp (List.mem_of_mem_take hj)
    have hjlt : j < papers.length := hpoolvalid j hjpool
    obtain ⟨-, i1, t1, -⟩ := c4 j hj
    have hst1j : getP st1 j = setScore (getP papers j) :=
      updateScores_mem papers pool j hpoolvalid hpoolnodup hjpool
    refine ⟨getP papers j, getD_mem_of_lt papers j defaultPaper hjlt, ?_, ?_⟩
    · rw [← hjp, i1, hst1j]
      rfl
    · rw [← hjp, t1, hst1j]
      rfl

/-- With always-succeeding provider oracles, any attempt on a paper with a
non-empty DOI reports success. -/
theorem allsuccess_dsp_ok (sizeE sizeA : Nat) (inst : Bool) (p : Paper)
    (name : String) (h : p.doi ≠ "") :
    (download_single_paper
      ⟨fun _ => DLOutcome.success sizeE, fun _ => DLOutcome.success sizeA⟩
      inst p name).ok = true := by
  unfold download_single_paper download_paper
  dsimp only
  repeat' split
  all_goals first
  | rfl
  | (exfalso; exact h (by assumption))
  | simp_all

/-- Concrete phase-1 run: pool of two papers with input indices 1 and 2,
target 1, every attempt succeeding; the higher-scored paper B is returned
with its input index 2 untouched. -/
theorem ensure_c1_eval :
    ensure_target_downloads ⟨fun _ => DLOutcome.success 100, fun _ => DLOutcome.success 100⟩
      false (fun _ => "out.pdf")
      [{ title := "A", doi := "10.1234/a", paper_index := 1, relevance_score := 3 },
       { title := "B", doi := "10.1234/b", paper_index := 2, relevance_score := 5 }] 1
      = Except.ok [{
          title := "B"
          doi := "10.1234/b"
          paper_index := 2
          relevance_score := 5
          priority_score := calcScore 5 JournalType.UNKNOWN 0 0
          download_status := DownloadStatus.DOWNLOADED
          pdf_filename := "out.pdf"
          pdf_size := 100 }] := by
  have hlt : calcScore 3 JournalType.UNKNOWN 0 0 < calcScore 5 JournalType.UNKNOWN 0 0 := by
    simp only [calcScore]
    rw [if_neg (by decide : ¬ (JournalType.UNKNOWN = JournalType.ELSEVIER))]
    rw [if_neg (by decide : ¬ (JournalType.UNKNOWN = JournalType.ELSEVIER))]
    norm_num
  have hsort : sortDesc (scoreKey (updateScores
      [{ title := "A", doi := "10.1234/a", paper_index := 1, relevance_score := 3 },
       { title := "B", doi := "10.1234/b", paper_index := 2, relevance_score := 5 }] [0, 1]))
      [0, 1] = [1, 0] := by
    have hcond : scoreKey (updateScores
        [{ title := "A", doi := "10.1234/a", paper_index := 1, relevance_score := 3 },
       { title := "B", doi := "10.1234/b", paper_index := 2, relevance_score := 5 }] [0, 1]) 0
        < scoreKey (updateScores
        [{ title := "A", doi := "10.1234/a", paper_index := 1, relevance_score := 3 },
       { title := "B", doi := "10.1234/b", paper_index := 2, relevance_score := 5 }] [0, 1]) 1 := hlt
    show insertDesc _ 0 (insertDesc _ 1 []) = [1, 0]
    rw [insertDesc, insertDesc, if_pos hcond]
    rfl
  have hcps : calculate_priority_scores
      [{ title := "A", doi := "10.1234/a", paper_index := 1, relevance_score := 3 },
       { title := "B", doi := "10.1234/b", paper_index := 2, relevance_score := 5 }] [0, 1]
      = Except.ok (updateScores
          [{ title := "A", doi := "10.1234/a", paper_index := 1, relevance_score := 3 },
       { title := "B", doi := "10.1234/b", paper_index := 2, relevance_score := 5 }] [0, 1],
        [1, 0]) := by
    unfold calculate_priority_scores
    dsimp only
    rw [hsort]
    rfl
  have hph : priority_download_phase
      ⟨fun _ => DLOutcome.success 100, fun _ => DLOutcome.success 100⟩ false (fun _ => "out.pdf")
      [{ title := "A", doi := "10.1234/a", paper_index := 1, relevance_score := 3 },
       { title := "B", doi := "10.1234/b", paper_index := 2, relevance_score := 5 }] [0, 1] 1
      = Except.ok ((updateScores
          [{ title := "A", doi := "10.1234/a", paper_index := 1, relevance_score := 3 },
       { title := "B", doi := "10.1234/b", paper_index := 2, relevance_score := 5 }] [0, 1]).set 1
            ({
          title := "B"
          doi := "10.1234/b"
          paper_index := 2
          relevance_score := 5
          priority_score := calcScore 5 JournalType.UNKNOWN 0 0
          download_status := DownloadStatus.DOWNLOADED
          pdf_filename := "out.pdf"
          pdf_size := 100 }), [1]) := by
    unfold priority_download_phase
    rw [hcps, except_bind_ok]
    rfl
  unfold ensure_target_downloads
  dsimp only
  rw [show List.range (List.length
      [({ title := "A", doi := "10.1234/a", paper_index := 1, relevance_score := 3 } : Paper),
       { title := "B", doi := "10.1234/b", paper_index := 2, relevance_score := 5 }]) = [0, 1]
    from rfl]
  rw [hph, except_bind_ok]
  rfl

/-- C1 counterexample: with this pool, target 1 and all attempts
succeeding, `ensure_target_downloads` returns via the phase-1 path and the
returned paper keeps its input `paper_index` 2 — the sequence indices are
[2], not the contiguous [1] the claim requires. -/
theorem ensure_target_downloads_index_not_contiguous :
    Except.map (List.map (fun p : Paper => p.paper_index))
      (ensure_target_downloads
        ⟨fun _ => DLOutcome.success 100, fun _ => DLOutcome.success 100⟩
        false (fun _ => "out.pdf")
        [{ title := "A", doi := "10.1234/a", paper_index := 1, relevance_score := 3 },
       { title := "B", doi := "10.1234/b", paper_index := 2, relevance_score := 5 }] 1)
      = Except.ok [(2 : Int)]
    ∧ ((2 : Int) ≠ 1) := by
  refine ⟨?_, by decide⟩
  rw [ensure_c1_eval]
  rfl

/-- Witness for `ensure_target_downloads_allsuccess` at the concrete run of
`ensure_c1_eval`. -/
theorem ensure_target_downloads_allsuccess_witness :
    1 ≤ ([{ title := "A", doi := "10.1234/a", paper_index := 1, relevance_score := 3 },
       { title := "B", doi := "10.1234/b", paper_index := 2, relevance_score := 5 }] : List Paper).length
    ∧ ([{
          title := "B"
          doi := "10.1234/b"
          paper_index := 2
          relevance_score := 5
          priority_score := calcScore 5 JournalType.UNKNOWN 0 0
          download_status := DownloadStatus.DOWNLOADED
          pdf_filename := "out.pdf"
          pdf_size := 100 }] : List Paper).length = 1 :=
  ⟨by decide,
    (ensure_target_downloads_allsuccess
      ⟨fun _ => DLOutcome.success 100, fun _ => DLOutcome.success 100⟩
      false (fun _ => "out.pdf")
      [{ title := "A", doi := "10.1234/a", paper_index := 1, relevance_score := 3 },
       { title := "B", doi := "10.1234/b", paper_index := 2, relevance_score := 5 }] 1
      [{
          title := "B"
          doi := "10.1234/b"
          paper_index := 2
          relevance_score := 5
          priority_score := calcScore 5 JournalType.UNKNOWN 0 0
          download_status := DownloadStatus.DOWNLOADED
          pdf_filename := "out.pdf"
          pdf_size := 100 }]
      (le_refl 1) (by decide) (by decide)
      (fun p name h => allsuccess_dsp_ok 100 100 false p name h)
      ensure_c1_eval).1⟩

/-- Witness for `priority_score_formula_pure_stable` on a one-paper pool. -/
theorem priority_score_formula_pure_stable_witness :
    calculate_priority_scores [defaultPaper] [0]
      = .ok (updateScores [defaultPaper] [0],
          sortDesc (scoreKey (updateScores [defaultPaper] [0])) [0])
    ∧ (sortDesc (scoreKey (updateScores [defaultPaper] [0])) [0]).Pairwise
        (fun i j => scoreKey (updateScores [defaultPaper] [0]) j
          ≤ scoreKey (updateScores [defaultPaper] [0]) i) :=
  ⟨rfl, (priority_score_formula_pure_stable.2.2.2 [defaultPaper] [0] _ _ rfl).1⟩

end PaperAgent
